import Mathlib

/-!
Shallow embedding of `core/lib/dal/src/transactions_web3_dal.rs` and
`core/lib/prover_utils/src/lib.rs` (zksync-era).

The persistence engine is modelled as in-memory tables (lists of rows); each
SQL query is translated into the corresponding filter / sort / join on those
lists, and the Rust post-processing is translated function by function.
`H256`, `H160`, `U256`, `U64` values and timestamps are modelled as `Nat`
(fixed-width overflow only matters for the `U256` subtraction in the gas-used
computation, which in the source uses parity-style `U256 - U256` that aborts
on underflow; we model that subtraction as an explicit checked operation).
-/

/-- Row of the `transactions` table (the columns this DAL reads).
`transfer_to` models `data->'to'`, `execute_contract_address` models
`data->'contractAddress'` (already decoded: the `serde_json` decoding of a
well-formed stored address is the identity in this model). -/
structure StorageTx where
  hash : Nat
  index_in_block : Option Nat
  l1_batch_tx_index : Option Nat
  miniblock_number : Option Nat
  error : Option String
  effective_gas_price : Option Nat
  initiator_address : Nat
  transfer_to : Option Nat
  execute_contract_address : Option Nat
  tx_format : Option Nat
  refunded_gas : Nat
  gas_limit : Option Nat
  nonce : Nat
  is_priority : Bool
  received_at : Nat
  deriving DecidableEq, Repr

/-- Row of the `miniblocks` table (the columns this DAL reads). -/
structure Miniblock where
  number : Nat
  hash : Nat
  l1_batch_number : Option Nat
  deriving DecidableEq, Repr

/-- Row of the `storage_logs` table (the columns the receipt query reads). -/
structure StorageLogRow where
  address : Nat
  tx_hash : Nat
  miniblock_number : Nat
  operation_number : Nat
  key : Nat
  value : Nat
  deriving DecidableEq, Repr

/-- Row of the `events` table (the columns the receipt query reads). The raw
table carries no block hash and no batch number. -/
structure EventRow where
  address : Nat
  topic1 : Nat
  topic2 : Nat
  topic3 : Nat
  topic4 : Nat
  value : Nat
  miniblock_number : Nat
  tx_hash : Nat
  tx_index_in_block : Nat
  event_index_in_block : Nat
  event_index_in_tx : Nat
  deriving DecidableEq, Repr

/-- Row of the `l2_to_l1_logs` table. -/
structure L2ToL1Row where
  miniblock_number : Nat
  log_index_in_miniblock : Nat
  log_index_in_tx : Nat
  tx_hash : Nat
  shard_id : Nat
  is_service : Bool
  tx_index_in_miniblock : Nat
  tx_index_in_l1_batch : Nat
  sender : Nat
  key : Nat
  value : Nat
  deriving DecidableEq, Repr

/-- The ledger store: the tables read by `TransactionsWeb3Dal`, plus the
external collaborator `StorageWeb3Dal::get_address_historical_nonce`
(queried at `BlockId::Number(BlockNumber::Latest)`), modelled as an oracle
from initiator address to the authoritative `latest` nonce. -/
structure Store where
  transactions : List StorageTx
  miniblocks : List Miniblock
  storage_logs : List StorageLogRow
  events : List EventRow
  l2_to_l1_logs : List L2ToL1Row
  latest_nonce : Nat → Nat

/-- Result row of the `StorageWeb3Log` query: the raw event columns plus the
two columns the SQL selects as `Null` (`block_hash`, `l1_batch_number`). -/
structure StorageWeb3Log where
  address : Nat
  topic1 : Nat
  topic2 : Nat
  topic3 : Nat
  topic4 : Nat
  value : Nat
  block_hash : Option Nat
  l1_batch_number : Option Nat
  miniblock_number : Nat
  tx_hash : Nat
  tx_index_in_block : Nat
  event_index_in_block : Nat
  event_index_in_tx : Nat
  deriving DecidableEq, Repr

/-- Modelled from the spec: the api `Log` type and the field-for-field
conversion `From<StorageWeb3Log> for Log` live in `zksync_types::api` and
`models/storage_event.rs`, which are not under `src/`. Per spec section 3,
a log row is tagged with its originating transaction hash and the ordering
key (block number, then in-block index); the conversion carries the raw row
fields across unchanged (`miniblock_number` becomes `block_number`,
`event_index_in_block` becomes `log_index`, `event_index_in_tx` becomes
`transaction_log_index`). -/
structure Log where
  address : Nat
  topics : List Nat
  data : Nat
  block_hash : Option Nat
  block_number : Option Nat
  l1_batch_number : Option Nat
  transaction_hash : Option Nat
  transaction_index : Option Nat
  log_index : Option Nat
  transaction_log_index : Option Nat
  deriving DecidableEq, Repr

/-- Modelled from the spec: conversion of a fetched `StorageWeb3Log` row into
an api `Log` (see `Log`). -/
def Log.ofStorage (e : StorageWeb3Log) : Log :=
  { address := e.address
    topics := [e.topic1, e.topic2, e.topic3, e.topic4]
    data := e.value
    block_hash := e.block_hash
    block_number := some e.miniblock_number
    l1_batch_number := e.l1_batch_number
    transaction_hash := some e.tx_hash
    transaction_index := some e.tx_index_in_block
    log_index := some e.event_index_in_block
    transaction_log_index := some e.event_index_in_tx }

/-- Modelled from the spec: the api `L2ToL1Log` type and the conversion
`From<StorageL2ToL1Log>` (not under `src/`); the raw row fields are carried
across unchanged, `log_index_in_tx` becomes `transaction_log_index`. -/
structure L2ToL1Log where
  block_hash : Option Nat
  block_number : Nat
  l1_batch_number : Option Nat
  log_index : Nat
  transaction_index : Nat
  transaction_hash : Nat
  transaction_log_index : Nat
  shard_id : Nat
  is_service : Bool
  sender : Nat
  key : Nat
  value : Nat
  deriving DecidableEq, Repr

/-- Modelled from the spec: conversion of a fetched `l2_to_l1_logs` row into
an api `L2ToL1Log` (see `L2ToL1Log`); the query selects `block_hash` and
`l1_batch_number` as `Null`, hence `none` here. -/
def L2ToL1Log.ofStorage (r : L2ToL1Row) : L2ToL1Log :=
  { block_hash := none
    block_number := r.miniblock_number
    l1_batch_number := none
    log_index := r.log_index_in_miniblock
    transaction_index := r.tx_index_in_miniblock
    transaction_hash := r.tx_hash
    transaction_log_index := r.log_index_in_tx
    shard_id := r.shard_id
    is_service := r.is_service
    sender := r.sender
    key := r.key
    value := r.value }

/-- The assembled `TransactionReceipt` (the api type, fields this DAL sets).
The source fields `from` and `to` are called `from_addr` and `to_addr` here
(`from` and `to` are Lean keywords); `cumulative_gas_used` and `logs_bloom`
are set to `Default::default()`. -/
structure TransactionReceipt where
  transaction_hash : Nat
  transaction_index : Nat
  block_hash : Option Nat
  block_number : Option Nat
  l1_batch_tx_index : Option Nat
  l1_batch_number : Option Nat
  from_addr : Nat
  to_addr : Option Nat
  cumulative_gas_used : Nat
  gas_used : Option Nat
  effective_gas_price : Option Nat
  contract_address : Option Nat
  logs : List Log
  l2_to_l1_logs : List L2ToL1Log
  status : Option Nat
  root : Option Nat
  logs_bloom : Nat
  transaction_type : Option Nat
  deriving DecidableEq, Repr, Inhabited

/-- Address of the account-code-storage system contract
(`ACCOUNT_CODE_STORAGE_ADDRESS`, defined in `zksync_types`, not under
`src/`; its concrete value is irrelevant to the DAL logic). -/
def ACCOUNT_CODE_STORAGE_ADDRESS : Nat := 0x8002

/-- Modelled from the spec: the sentinel "failed deployment" marker value
(`FAILED_CONTRACT_DEPLOYMENT_BYTECODE_HASH`, defined in `zksync_types`, not
under `src/`; only its use as an excluded sentinel matters here). -/
def FAILED_CONTRACT_DEPLOYMENT_BYTECODE_HASH : Nat := 0

/-- Translation of `zksync_utils::h256_to_account_address`: keep the low 20
bytes of a 32-byte word. -/
def h256_to_account_address (h : Nat) : Nat := h % 2 ^ 160

/-- Parity-style `U256` subtraction: the source's `gas_limit - refunded_gas`
uses the `Sub` impl of `U256`, which aborts on underflow rather than wrap;
`none` models that abort. -/
def u256_sub (a b : Nat) : Option Nat := if b ≤ a then some (a - b) else none

/-- Status computation of `get_transaction_receipt` (the `match` on
`(db_row.block_number, db_row.error)`). -/
def receipt_status (block_number : Option Nat) (error : Option String) : Option Nat :=
  match block_number, error with
  | _, some _ => some 0
  | some _, none => some 1
  | _, _ => none

/-- Point lookup `WHERE transactions.hash = $2` (`fetch_optional`). -/
def find_tx (s : Store) (h : Nat) : Option StorageTx :=
  s.transactions.find? (fun t => t.hash == h)

/-- Join `LEFT JOIN miniblocks ON miniblocks.number = transactions.miniblock_number`. -/
def find_miniblock (s : Store) (n : Nat) : Option Miniblock :=
  s.miniblocks.find? (fun b => b.number == n)

/-- Filter of the `sl` CTE: storage logs of the account-code-storage address
for this transaction. -/
def account_code_rows (s : Store) (h : Nat) : List StorageLogRow :=
  s.storage_logs.filter
    (fun r => r.address == ACCOUNT_CODE_STORAGE_ADDRESS && r.tx_hash == h)

/-- The `ORDER BY miniblock_number DESC, operation_number DESC LIMIT 1` of the
`sl` CTE: the first row in list order with the lexicographically greatest
`(miniblock_number, operation_number)` key. -/
def pick_latest (rows : List StorageLogRow) : Option StorageLogRow :=
  rows.foldl
    (fun acc r =>
      match acc with
      | none => some r
      | some b =>
        if b.miniblock_number < r.miniblock_number ∨
            (b.miniblock_number = r.miniblock_number ∧
              b.operation_number < r.operation_number)
        then some r else some b)
    none

/-- The `sl.key as "contract_address?"` column after
`LEFT JOIN sl ON sl.value != $3`: the selected top row's key unless its value
is the failed-deployment sentinel. -/
def contract_address_hint (s : Store) (h : Nat) : Option Nat :=
  match pick_latest (account_code_rows s h) with
  | some r =>
    if r.value ≠ FAILED_CONTRACT_DEPLOYMENT_BYTECODE_HASH then some r.key else none
  | none => none

/-- Result row of the first query of `get_transaction_receipt` (`db_row`). -/
structure DbRow where
  tx_hash : Nat
  index_in_block : Option Nat
  l1_batch_tx_index : Option Nat
  block_number : Option Nat
  error : Option String
  effective_gas_price : Option Nat
  initiator_address : Nat
  transfer_to : Option Nat
  execute_contract_address : Option Nat
  tx_format : Option Nat
  refunded_gas : Nat
  gas_limit : Option Nat
  block_hash : Option Nat
  l1_batch_number : Option Nat
  contract_address : Option Nat
  deriving DecidableEq, Repr

/-- The first query of `get_transaction_receipt`: transactions row joined with
its miniblock (left join) and with the `sl` contract-address hint. -/
def fetch_receipt_row (s : Store) (h : Nat) : Option DbRow :=
  (find_tx s h).map fun t =>
    let mb := t.miniblock_number.bind (find_miniblock s)
    { tx_hash := t.hash
      index_in_block := t.index_in_block
      l1_batch_tx_index := t.l1_batch_tx_index
      block_number := t.miniblock_number
      error := t.error
      effective_gas_price := t.effective_gas_price
      initiator_address := t.initiator_address
      transfer_to := t.transfer_to
      execute_contract_address := t.execute_contract_address
      tx_format := t.tx_format
      refunded_gas := t.refunded_gas
      gas_limit := t.gas_limit
      block_hash := mb.map (fun b => b.hash)
      l1_batch_number := mb.bind (fun b => b.l1_batch_number)
      contract_address := contract_address_hint s h }

/-- The `map(|db_row| TransactionReceipt { .. })` closure of
`get_transaction_receipt`. The outer `Option` models the abort of the `U256`
subtraction in `gas_used` on malformed data (`refunded_gas > gas_limit`). -/
def build_receipt (row : DbRow) : Option TransactionReceipt :=
  let gas_used_val : Option (Option Nat) :=
    match row.gas_limit with
    | none => some none
    | some gl => (u256_sub gl row.refunded_gas).map some
  gas_used_val.map fun gas_used =>
    { transaction_hash := row.tx_hash
      transaction_index := row.index_in_block.getD 0
      block_hash := row.block_hash
      block_number := row.block_number
      l1_batch_tx_index := row.l1_batch_tx_index
      l1_batch_number := row.l1_batch_number
      from_addr := row.initiator_address
      to_addr := (row.transfer_to.or row.execute_contract_address).or (some 0)
      cumulative_gas_used := 0
      gas_used := gas_used
      effective_gas_price := some (row.effective_gas_price.getD 0)
      contract_address := row.contract_address.map h256_to_account_address
      logs := []
      l2_to_l1_logs := []
      status := receipt_status row.block_number row.error
      root := row.block_hash
      logs_bloom := 0
      transaction_type := some (row.tx_format.getD 0) }

/-- Comparison implementing `ORDER BY miniblock_number ASC, event_index_in_block ASC`. -/
def event_le (a b : EventRow) : Prop :=
  a.miniblock_number < b.miniblock_number ∨
    (a.miniblock_number = b.miniblock_number ∧
      a.event_index_in_block ≤ b.event_index_in_block)

instance : DecidableRel event_le := fun a b => by unfold event_le; infer_instance

instance : IsTrans EventRow event_le := ⟨by intro a b c; unfold event_le; omega⟩

instance : IsTotal EventRow event_le := ⟨by intro a b; unfold event_le; omega⟩

/-- The events query of `get_transaction_receipt`: all rows for the hash in
`(miniblock_number, event_index_in_block)` ascending order, with the
`block_hash` / `l1_batch_number` columns selected as `Null`. -/
def fetch_web3_logs (s : Store) (h : Nat) : List StorageWeb3Log :=
  (List.insertionSort event_le (s.events.filter (fun e => e.tx_hash == h))).map fun e =>
    { address := e.address
      topic1 := e.topic1
      topic2 := e.topic2
      topic3 := e.topic3
      topic4 := e.topic4
      value := e.value
      block_hash := none
      l1_batch_number := none
      miniblock_number := e.miniblock_number
      tx_hash := e.tx_hash
      tx_index_in_block := e.tx_index_in_block
      event_index_in_block := e.event_index_in_block
      event_index_in_tx := e.event_index_in_tx }

/-- Comparison implementing `ORDER BY log_index_in_tx ASC`. -/
def l2l1_le (a b : L2ToL1Row) : Prop :=
  a.log_index_in_tx ≤ b.log_index_in_tx

instance : DecidableRel l2l1_le := fun a b => by unfold l2l1_le; infer_instance

instance : IsTrans L2ToL1Row l2l1_le := ⟨by intro a b c; unfold l2l1_le; omega⟩

instance : IsTotal L2ToL1Row l2l1_le := ⟨by intro a b; unfold l2l1_le; omega⟩

/-- The `l2_to_l1_logs` query of `get_transaction_receipt`: all rows for the
hash in `log_index_in_tx` ascending order. -/
def fetch_l2_to_l1 (s : Store) (h : Nat) : List L2ToL1Row :=
  List.insertionSort l2l1_le (s.l2_to_l1_logs.filter (fun r => r.tx_hash == h))

/-- The per-log stamping loop: each fetched log keeps its own fields but gets
`block_hash` and `l1_batch_number` overwritten from the receipt. -/
def stamped_logs (s : Store) (h : Nat) (rec : TransactionReceipt) : List Log :=
  (fetch_web3_logs s h).map fun e =>
    { Log.ofStorage e with
        block_hash := rec.block_hash
        l1_batch_number := rec.l1_batch_number }

/-- The per-message stamping loop for cross-domain messages. -/
def stamped_l2_to_l1 (s : Store) (h : Nat) (rec : TransactionReceipt) : List L2ToL1Log :=
  (fetch_l2_to_l1 s h).map fun r =>
    { L2ToL1Log.ofStorage r with
        block_hash := rec.block_hash
        l1_batch_number := rec.l1_batch_number }

/-- Translation of `get_transaction_receipt`. The outer `Option` is `none`
exactly when the underlying `U256` gas subtraction aborts; `some none` is the
`Ok(None)` "no such transaction" outcome; I/O errors of the persistence
engine have no counterpart in this pure model. -/
def get_transaction_receipt (s : Store) (h : Nat) :
    Option (Option TransactionReceipt) :=
  match fetch_receipt_row s h with
  | none => some none
  | some row =>
    (build_receipt row).map fun rec =>
      some { rec with
              logs := stamped_logs s h rec
              l2_to_l1_logs := stamped_l2_to_l1 s h rec }

/-- The `i32::MAX` bound of the index short-circuit in `get_transaction`. -/
def i32_max : Nat := 2 ^ 31 - 1

/-- Transaction identifier (`TransactionId`): a hash, or a block selector plus
index-in-block. The block selector itself is consumed only by the external
`web3_block_where_sql` helper, abstracted as the `block_matches` argument of
`get_transaction`. -/
inductive TransactionIdM where
  | byHash (h : Nat)
  | byBlock (index : Nat)
  deriving DecidableEq, Repr

/-- Translation of `get_transaction`. `block_matches` abstracts the block
where-clause built by `web3_block_where_sql` / `bind_block_where_sql_params`
(collaborator code not under `src/`): it receives the candidate row and its
joined miniblock. `extract_web3_transaction` (also a collaborator) is a pure
conversion of the found row, so the found `StorageTx` row itself is returned. -/
def get_transaction (s : Store)
    (block_matches : StorageTx → Option Miniblock → Bool) :
    TransactionIdM → Option StorageTx
  | TransactionIdM.byHash h => s.transactions.find? (fun t => t.hash == h)
  | TransactionIdM.byBlock index =>
    if i32_max < index then none
    else
      s.transactions.find? fun t =>
        t.index_in_block == some index &&
          block_matches t (t.miniblock_number.bind (find_miniblock s))

/-- Comparison implementing `ORDER BY received_at ASC`. -/
def received_le (a b : StorageTx) : Prop :=
  a.received_at ≤ b.received_at

instance : DecidableRel received_le := fun a b => by unfold received_le; infer_instance

instance : IsTrans StorageTx received_le := ⟨by intro a b c; unfold received_le; omega⟩

instance : IsTotal StorageTx received_le := ⟨by intro a b; unfold received_le; omega⟩

/-- The rows returned by the query of `get_pending_txs_hashes_after`:
`WHERE received_at > $1 ORDER BY received_at ASC LIMIT $2` (a `Null` limit,
i.e. `none`, is unbounded). -/
def pending_records (s : Store) (from_timestamp : Nat) (limit : Option Nat) :
    List StorageTx :=
  let sorted :=
    List.insertionSort received_le
      (s.transactions.filter (fun t => decide (from_timestamp < t.received_at)))
  match limit with
  | some l => sorted.take l
  | none => sorted

/-- Translation of `get_pending_txs_hashes_after`: the hashes of the returned
rows, and the `received_at` of the last returned row as the new cursor. -/
def get_pending_txs_hashes_after (s : Store) (from_timestamp : Nat)
    (limit : Option Nat) : List Nat × Option Nat :=
  let records := pending_records s from_timestamp limit
  let last_loc := (records.getLast?).map (fun r => r.received_at)
  (records.map (fun r => r.hash), last_loc)

/-- The gap-walk loop of `next_nonce_by_initiator_account`: starting from the
`latest` nonce, advance past each observed nonce equal to the cursor; stop at
the first mismatch. -/
def pending_nonce_loop : Nat → List Nat → Nat
  | pending, [] => pending
  | pending, nonce :: rest =>
    if pending = nonce then pending_nonce_loop (pending + 1) rest else pending

/-- The nonce query of `next_nonce_by_initiator_account`:
`WHERE initiator_address = $1 AND nonce >= $2 AND is_priority = FALSE AND
(miniblock_number IS NOT NULL OR error IS NULL) ORDER BY nonce`. -/
def non_rejected_nonces (s : Store) (initiator latest : Nat) : List Nat :=
  List.insertionSort (fun a b => a ≤ b)
    ((s.transactions.filter fun t =>
        t.initiator_address == initiator &&
          decide (latest ≤ t.nonce) &&
          t.is_priority == false &&
          (t.miniblock_number.isSome || t.error.isNone)).map
      (fun t => t.nonce))

/-- Translation of `next_nonce_by_initiator_account`: obtain the `latest`
nonce from the collaborator, then walk the ordered non-rejected nonces. -/
def next_nonce_by_initiator_account (s : Store) (initiator : Nat) : Nat :=
  let latest := s.latest_nonce initiator
  pending_nonce_loop latest (non_rejected_nonces s initiator latest)

/-- Translation of `numeric_index_to_circuit_name` (prover_utils). -/
def numeric_index_to_circuit_name (circuit_numeric_index : Nat) : Option String :=
  if circuit_numeric_index = 0 then some "Scheduler"
  else if circuit_numeric_index = 1 then some "Node aggregation"
  else if circuit_numeric_index = 2 then some "Leaf aggregation"
  else if circuit_numeric_index = 3 then some "Main VM"
  else if circuit_numeric_index = 4 then some "Decommitts sorter"
  else if circuit_numeric_index = 5 then some "Code decommitter"
  else if circuit_numeric_index = 6 then some "Log demuxer"
  else if circuit_numeric_index = 7 then some "Keccak"
  else if circuit_numeric_index = 8 then some "SHA256"
  else if circuit_numeric_index = 9 then some "ECRecover"
  else if circuit_numeric_index = 10 then some "RAM permutation"
  else if circuit_numeric_index = 11 then some "Storage sorter"
  else if circuit_numeric_index = 12 then some "Storage application"
  else if circuit_numeric_index = 13 then some "Initial writes pubdata rehasher"
  else if circuit_numeric_index = 14 then some "Repeated writes pubdata rehasher"
  else if circuit_numeric_index = 15 then some "Events sorter"
  else if circuit_numeric_index = 16 then some "L1 messages sorter"
  else if circuit_numeric_index = 17 then some "L1 messages rehasher"
  else if circuit_numeric_index = 18 then some "L1 messages merklizer"
  else none

/-- Translation of `circuit_name_to_numeric_index` (prover_utils). -/
def circuit_name_to_numeric_index (circuit_name : String) : Option Nat :=
  if circuit_name = "Scheduler" then some 0
  else if circuit_name = "Node aggregation" then some 1
  else if circuit_name = "Leaf aggregation" then some 2
  else if circuit_name = "Main VM" then some 3
  else if circuit_name = "Decommitts sorter" then some 4
  else if circuit_name = "Code decommitter" then some 5
  else if circuit_name = "Log demuxer" then some 6
  else if circuit_name = "Keccak" then some 7
  else if circuit_name = "SHA256" then some 8
  else if circuit_name = "ECRecover" then some 9
  else if circuit_name = "RAM permutation" then some 10
  else if circuit_name = "Storage sorter" then some 11
  else if circuit_name = "Storage application" then some 12
  else if circuit_name = "Initial writes pubdata rehasher" then some 13
  else if circuit_name = "Repeated writes pubdata rehasher" then some 14
  else if circuit_name = "Events sorter" then some 15
  else if circuit_name = "L1 messages sorter" then some 16
  else if circuit_name = "L1 messages rehasher" then some 17
  else if circuit_name = "L1 messages merklizer" then some 18
  else none

/-- Ordering key of an assembled api log: (block number, in-block index);
both fields are populated for every fetched log. -/
def log_order_key (l : Log) : Nat × Nat :=
  (l.block_number.getD 0, l.log_index.getD 0)

/-- Lexicographic order on (block number, in-block index) keys. -/
def lex_le (a b : Nat × Nat) : Prop :=
  a.1 < b.1 ∨ (a.1 = b.1 ∧ a.2 ≤ b.2)

/-!
## Helper lemmas
-/

theorem pending_nonce_loop_spec (l : List Nat) :
    ∀ pending, l.Pairwise (· < ·) → (∀ x ∈ l, pending ≤ x) →
      pending ≤ pending_nonce_loop pending l ∧
      pending_nonce_loop pending l ∉ l ∧
      ∀ m, pending ≤ m → m < pending_nonce_loop pending l → m ∈ l := by
  induction l with
  | nil =>
    intro pending _ _
    refine ⟨Nat.le_refl _, by simp [pending_nonce_loop], ?_⟩
    intro m h1 h2
    simp only [pending_nonce_loop] at h2
    exact absurd h2 (by omega)
  | cons n rest ih =>
    intro pending hp hge
    rcases List.pairwise_cons.mp hp with ⟨hn, hrest⟩
    simp only [pending_nonce_loop]
    by_cases heq : pending = n
    · rw [if_pos heq]
      subst heq
      obtain ⟨h1, h2, h3⟩ := ih (pending + 1) hrest (fun x hx => hn x hx)
      refine ⟨Nat.le_trans (Nat.le_succ _) h1, ?_, ?_⟩
      · intro hmem
        rcases List.mem_cons.mp hmem with h | h
        · omega
        · exact h2 h
      · intro m hm1 hm2
        rcases Nat.eq_or_lt_of_le hm1 with h | h
        · exact List.mem_cons.mpr (Or.inl h.symm)
        · exact List.mem_cons.mpr (Or.inr (h3 m h hm2))
    · rw [if_neg heq]
      have hpn : pending ≤ n := hge n (List.mem_cons_self n rest)
      refine ⟨Nat.le_refl _, ?_, ?_⟩
      · intro hmem
        rcases List.mem_cons.mp hmem with h | h
        · exact heq h
        · have hlt := hn pending h
          omega
      · intro m hm1 hm2
        exact absurd hm2 (by omega)

theorem non_rejected_nonces_sorted (s : Store) (a latest : Nat) :
    (non_rejected_nonces s a latest).Pairwise (· ≤ ·) := by
  unfold non_rejected_nonces
  exact List.sorted_insertionSort (fun a b => a ≤ b) _

theorem non_rejected_nonces_ge (s : Store) (a latest : Nat) :
    ∀ x ∈ non_rejected_nonces s a latest, latest ≤ x := by
  intro x hx
  unfold non_rejected_nonces at hx
  rw [List.mem_insertionSort] at hx
  rcases List.mem_map.mp hx with ⟨t, ht, rfl⟩
  rcases List.mem_filter.mp ht with ⟨-, hcond⟩
  simp only [Bool.and_eq_true, decide_eq_true_iff, beq_iff_eq] at hcond
  omega

/-!
## Claim theorems
-/

/-- Claim C1: `next_nonce_by_initiator_account` returns the smallest nonce
greater than or equal to the confirmed `latest` nonce that is not present
among the account's non-rejected, non-priority outstanding nonces (the query
returns them sorted ascending), assuming they contain no duplicates; in
particular with zero outstanding nonces it returns the `latest` nonce
unchanged, and on a fully contiguous run starting at the `latest` nonce it
returns `latest` plus the count of outstanding nonces. -/
theorem next_nonce_gap_correct (s : Store) (a : Nat)
    (hnd : (non_rejected_nonces s a (s.latest_nonce a)).Nodup) :
    (s.latest_nonce a ≤ next_nonce_by_initiator_account s a ∧
        next_nonce_by_initiator_account s a ∉
          non_rejected_nonces s a (s.latest_nonce a) ∧
        ∀ m, s.latest_nonce a ≤ m →
          m ∉ non_rejected_nonces s a (s.latest_nonce a) →
          next_nonce_by_initiator_account s a ≤ m) ∧
      (non_rejected_nonces s a (s.latest_nonce a) = [] →
        next_nonce_by_initiator_account s a = s.latest_nonce a) ∧
      ∀ k, non_rejected_nonces s a (s.latest_nonce a) =
          List.range' (s.latest_nonce a) k →
        next_nonce_by_initiator_account s a = s.latest_nonce a + k := by
  have hsorted : (non_rejected_nonces s a (s.latest_nonce a)).Pairwise (· < ·) :=
    List.Sorted.lt_of_le (non_rejected_nonces_sorted s a (s.latest_nonce a)) hnd
  have hge := non_rejected_nonces_ge s a (s.latest_nonce a)
  have hloop : next_nonce_by_initiator_account s a =
      pending_nonce_loop (s.latest_nonce a)
        (non_rejected_nonces s a (s.latest_nonce a)) := rfl
  obtain ⟨h1, h2, h3⟩ :=
    pending_nonce_loop_spec (non_rejected_nonces s a (s.latest_nonce a))
      (s.latest_nonce a) hsorted hge
  rw [hloop]
  have hmin : ∀ m, s.latest_nonce a ≤ m →
      m ∉ non_rejected_nonces s a (s.latest_nonce a) →
      pending_nonce_loop (s.latest_nonce a)
        (non_rejected_nonces s a (s.latest_nonce a)) ≤ m := by
    intro m hm hnm
    by_contra hc
    push_neg at hc
    exact hnm (h3 m hm hc)
  refine ⟨⟨h1, h2, hmin⟩, ?_, ?_⟩
  · intro hempty
    rw [hempty]
    rfl
  · intro k hk
    have hnotin : s.latest_nonce a + k ∉
        non_rejected_nonces s a (s.latest_nonce a) := by
      rw [hk, List.mem_range'_1]
      omega
    have h5 := hmin _ (Nat.le_add_right _ _) hnotin
    have h6 : ¬ pending_nonce_loop (s.latest_nonce a)
        (non_rejected_nonces s a (s.latest_nonce a)) < s.latest_nonce a + k := by
      intro hc
      have hmem : pending_nonce_loop (s.latest_nonce a)
          (non_rejected_nonces s a (s.latest_nonce a)) ∈
            List.range' (s.latest_nonce a) k :=
        List.mem_range'_1.mpr ⟨h1, hc⟩
      rw [← hk] at hmem
      exact h2 hmem
    omega

/-- Sample transaction row used by concrete-instance theorems: pending
(no miniblock, no error), non-priority, from initiator `1`, with nonce,
hash and arrival time `n`. -/
def sample_tx (n : Nat) : StorageTx :=
  { hash := n
    index_in_block := none
    l1_batch_tx_index := none
    miniblock_number := none
    error := none
    effective_gas_price := none
    initiator_address := 1
    transfer_to := none
    execute_contract_address := none
    tx_format := none
    refunded_gas := 0
    gas_limit := none
    nonce := n
    is_priority := false
    received_at := n }

/-- Concrete store for the nonce-gap instance: confirmed nonce 5, outstanding
non-rejected nonces 5, 6, 8. -/
def nonce_store : Store :=
  { transactions := [sample_tx 5, sample_tx 6, sample_tx 8]
    miniblocks := []
    storage_logs := []
    events := []
    l2_to_l1_logs := []
    latest_nonce := fun _ => 5 }

theorem next_nonce_gap_correct_witness :
    (non_rejected_nonces nonce_store 1 (nonce_store.latest_nonce 1)).Nodup ∧
    next_nonce_by_initiator_account nonce_store 1 = 7 ∧
    next_nonce_by_initiator_account nonce_store 1 ∉
      non_rejected_nonces nonce_store 1 (nonce_store.latest_nonce 1) :=
  ⟨by decide, by decide, (next_nonce_gap_correct nonce_store 1 (by decide)).1.2.1⟩

/-- Claim C2: the receipt status is a pure function of the inclusion block
number and the execution error: error present gives `Failed` (wire value 0)
regardless of the block value; error absent and block present gives
`Successful` (wire value 1); both absent gives an absent status (pending). -/
theorem receipt_status_resolution (row : DbRow) (rec : TransactionReceipt)
    (h : build_receipt row = some rec) :
    (row.error.isSome → rec.status = some 0) ∧
    (row.error = none → row.block_number.isSome → rec.status = some 1) ∧
    (row.error = none → row.block_number = none → rec.status = none) := by
  simp only [build_receipt] at h
  rcases Option.map_eq_some'.mp h with ⟨gu, hgu, hrec⟩
  subst hrec
  refine ⟨?_, ?_, ?_⟩
  · intro he
    rcases Option.isSome_iff_exists.mp he with ⟨e, he'⟩
    simp [receipt_status, he']
  · intro he hb
    rcases Option.isSome_iff_exists.mp hb with ⟨b, hb'⟩
    simp [receipt_status, he, hb']
  · intro he hb
    simp [receipt_status, he, hb]

/-- Concrete row for the status instance: an error is recorded, no inclusion
block. -/
def failed_row : DbRow :=
  { tx_hash := 10
    index_in_block := none
    l1_batch_tx_index := none
    block_number := none
    error := some "reverted"
    effective_gas_price := none
    initiator_address := 3
    transfer_to := none
    execute_contract_address := none
    tx_format := none
    refunded_gas := 0
    gas_limit := none
    block_hash := none
    l1_batch_number := none
    contract_address := none }

/-- The receipt assembled from `failed_row`. -/
def failed_rec : TransactionReceipt := (build_receipt failed_row).getD default

theorem receipt_status_resolution_witness :
    build_receipt failed_row = some failed_rec ∧
    failed_row.error.isSome = true ∧
    failed_rec.status = some 0 :=
  ⟨rfl, rfl, (receipt_status_resolution failed_row failed_rec rfl).1 rfl⟩

/-- Claim C3: the receipt's `to` address is the transfer target when present,
else the deployed contract address when present, else the all-zero address;
it is never absent. -/
theorem receipt_to_address_resolution (row : DbRow) (rec : TransactionReceipt)
    (h : build_receipt row = some rec) :
    (∀ a, row.transfer_to = some a → rec.to_addr = some a) ∧
    (row.transfer_to = none → ∀ b, row.execute_contract_address = some b →
      rec.to_addr = some b) ∧
    (row.transfer_to = none → row.execute_contract_address = none →
      rec.to_addr = some 0) ∧
    rec.to_addr ≠ none := by
  simp only [build_receipt] at h
  rcases Option.map_eq_some'.mp h with ⟨gu, hgu, hrec⟩
  subst hrec
  refine ⟨?_, ?_, ?_, ?_⟩
  · intro a ha
    simp [ha, Option.or]
  · intro htt b hec
    simp [htt, hec, Option.or]
  · intro htt hec
    simp [htt, hec, Option.or]
  · rcases htt : row.transfer_to with _ | a <;>
      rcases hec : row.execute_contract_address with _ | b <;>
      simp [htt, hec, Option.or]

/-- Concrete row for the address instance: a transfer target is present. -/
def transfer_row : DbRow :=
  { failed_row with error := none, transfer_to := some 7 }

/-- The receipt assembled from `transfer_row`. -/
def transfer_rec : TransactionReceipt := (build_receipt transfer_row).getD default

theorem receipt_to_address_resolution_witness :
    build_receipt transfer_row = some transfer_rec ∧
    transfer_row.transfer_to = some 7 ∧
    transfer_rec.to_addr = some 7 ∧
    transfer_rec.to_addr ≠ none :=
  ⟨rfl, rfl,
    (receipt_to_address_resolution transfer_row transfer_rec rfl).1 7 rfl,
    (receipt_to_address_resolution transfer_row transfer_rec rfl).2.2.2⟩

/-- Claim C4: with a gas limit present and `refunded_gas ≤ gas_limit`, the
receipt's `gas_used` is exactly `gas_limit - refunded_gas`; with a stored
`refunded_gas > gas_limit` the `U256` subtraction aborts (modelled as `none`)
instead of silently wrapping. -/
theorem receipt_gas_used_exact (row : DbRow) (gl : Nat)
    (hgl : row.gas_limit = some gl) :
    (row.refunded_gas ≤ gl →
      ∃ rec, build_receipt row = some rec ∧
        rec.gas_used = some (gl - row.refunded_gas)) ∧
    (gl < row.refunded_gas → build_receipt row = none) := by
  constructor
  · intro hle
    simp [build_receipt, hgl, u256_sub, hle]
  · intro hlt
    have hnle : ¬ row.refunded_gas ≤ gl := by omega
    simp [build_receipt, hgl, u256_sub, hnle]

/-- Concrete row for the gas instance: gas limit 100, refunded gas 30. -/
def gas_row : DbRow :=
  { failed_row with error := none, gas_limit := some 100, refunded_gas := 30 }

/-- The receipt assembled from `gas_row`. -/
def gas_rec : TransactionReceipt := (build_receipt gas_row).getD default

theorem receipt_gas_used_exact_witness :
    gas_row.gas_limit = some 100 ∧
    build_receipt gas_row = some gas_rec ∧
    gas_rec.gas_used = some 70 := by
  obtain ⟨rec, h1, h2⟩ := (receipt_gas_used_exact gas_row 100 rfl).1 (by decide)
  refine ⟨rfl, rfl, ?_⟩
  have heq : gas_rec = rec := by simp [gas_rec, h1]
  rw [heq]
  simpa using h2

/-- Claim C6: a block-and-index lookup whose index exceeds the storage's
`i32` width short-circuits to `None` before any query is issued, for every
store and every block selector. -/
theorem get_transaction_index_overflow_none (s : Store)
    (bm : StorageTx → Option Miniblock → Bool) (index : Nat)
    (hidx : i32_max < index) :
    get_transaction s bm (TransactionIdM.byBlock index) = none := by
  simp [get_transaction, hidx]

theorem get_transaction_index_overflow_none_witness :
    i32_max < 2 ^ 31 ∧
    get_transaction nonce_store (fun _ _ => true)
      (TransactionIdM.byBlock (2 ^ 31)) = none :=
  ⟨by decide,
    get_transaction_index_overflow_none nonce_store (fun _ _ => true)
      (2 ^ 31) (by decide)⟩

/-- Claim C8: when no transaction row matches the hash, the receipt lookup
returns the absent result (`Ok(None)`), not an error and not an abort; in
this pure model the only failure source is the gas-used abort, which a
missing row never reaches. -/
theorem receipt_missing_hash_none (s : Store) (h : Nat)
    (habs : ∀ t ∈ s.transactions, t.hash ≠ h) :
    get_transaction_receipt s h = some none := by
  have hfind : find_tx s h = none := by
    rw [find_tx, List.find?_eq_none]
    intro t ht
    simp [habs t ht]
  have hrow : fetch_receipt_row s h = none := by
    unfold fetch_receipt_row
    rw [hfind]
    rfl
  unfold get_transaction_receipt
  rw [hrow]

theorem receipt_missing_hash_none_witness :
    (∀ t ∈ nonce_store.transactions, t.hash ≠ 11) ∧
    get_transaction_receipt nonce_store 11 = some none :=
  ⟨by decide, receipt_missing_hash_none nonce_store 11 (by decide)⟩

/-- Claim C9: the receipt lookup is deterministic in the store state: two
stores that agree on all the tables the lookup reads (transactions,
miniblocks, storage logs, events, cross-domain messages) yield identical
results, including the best-effort contract-address-touch selection; in
particular two calls against an unchanged store agree. -/
theorem receipt_idempotent_in_store (s1 s2 : Store) (h : Nat)
    (ht : s1.transactions = s2.transactions)
    (hm : s1.miniblocks = s2.miniblocks)
    (hs : s1.storage_logs = s2.storage_logs)
    (he : s1.events = s2.events)
    (hl : s1.l2_to_l1_logs = s2.l2_to_l1_logs) :
    get_transaction_receipt s1 h = get_transaction_receipt s2 h := by
  rcases s1 with ⟨t1, m1, sl1, e1, l1, f1⟩
  rcases s2 with ⟨t2, m2, sl2, e2, l2, f2⟩
  change t1 = t2 at ht
  change m1 = m2 at hm
  change sl1 = sl2 at hs
  change e1 = e2 at he
  change l1 = l2 at hl
  subst ht hm hs he hl
  rfl

/-- A store identical to `nonce_store` except for the external nonce oracle,
used to exhibit determinism of the receipt lookup in the store tables. -/
def shifted_store : Store :=
  { nonce_store with latest_nonce := fun _ => 900 }

theorem receipt_idempotent_in_store_witness :
    nonce_store.transactions = shifted_store.transactions ∧
    get_transaction_receipt nonce_store 5 =
      get_transaction_receipt shifted_store 5 :=
  ⟨rfl, receipt_idempotent_in_store nonce_store shifted_store 5
    rfl rfl rfl rfl rfl⟩

/-- Claim C5: every log and every cross-domain message attached to an
assembled receipt carries the receipt's own block hash and batch number
(injected from the receipt, since the raw rows carry none), logs are ordered
by (block number, in-block event index) ascending, and cross-domain messages
by in-transaction index ascending. -/
theorem receipt_log_stamping_and_order (s : Store) (h : Nat)
    (rec : TransactionReceipt)
    (hr : get_transaction_receipt s h = some (some rec)) :
    (∀ l ∈ rec.logs, l.block_hash = rec.block_hash ∧
      l.l1_batch_number = rec.l1_batch_number) ∧
    (∀ m ∈ rec.l2_to_l1_logs, m.block_hash = rec.block_hash ∧
      m.l1_batch_number = rec.l1_batch_number) ∧
    rec.logs.Pairwise (fun a b => lex_le (log_order_key a) (log_order_key b)) ∧
    rec.l2_to_l1_logs.Pairwise
      (fun a b => a.transaction_log_index ≤ b.transaction_log_index) := by
  unfold get_transaction_receipt at hr
  rcases hrow : fetch_receipt_row s h with _ | row
  · rw [hrow] at hr
    simp at hr
  · rw [hrow] at hr
    rcases Option.map_eq_some'.mp hr with ⟨rec0, hb, hrec⟩
    have hrec' : rec = { rec0 with
        logs := stamped_logs s h rec0
        l2_to_l1_logs := stamped_l2_to_l1 s h rec0 } := by
      injection hrec with h'
      exact h'.symm
    subst hrec'
    refine ⟨?_, ?_, ?_, ?_⟩
    · intro l hl
      rcases List.mem_map.mp hl with ⟨e, he, rfl⟩
      exact ⟨rfl, rfl⟩
    · intro m hm
      rcases List.mem_map.mp hm with ⟨r, hrr, rfl⟩
      exact ⟨rfl, rfl⟩
    · show (stamped_logs s h rec0).Pairwise _
      unfold stamped_logs fetch_web3_logs
      rw [List.map_map]
      refine List.Pairwise.map _ ?_
        (List.sorted_insertionSort event_le
          (s.events.filter (fun e => e.tx_hash == h)))
      intro a b hab
      simpa [event_le, lex_le, log_order_key, Function.comp] using hab
    · show (stamped_l2_to_l1 s h rec0).Pairwise _
      unfold stamped_l2_to_l1 fetch_l2_to_l1
      refine List.Pairwise.map _ ?_
        (List.sorted_insertionSort l2l1_le
          (s.l2_to_l1_logs.filter (fun r => r.tx_hash == h)))
      intro a b hab
      simpa [l2l1_le, L2ToL1Log.ofStorage] using hab

/-- Concrete included transaction for the stamping instance. -/
def c5_tx : StorageTx :=
  { sample_tx 42 with
      miniblock_number := some 3
      index_in_block := some 0
      gas_limit := some 100
      refunded_gas := 30 }

/-- Concrete event row for the stamping instance, at in-block index `i`. -/
def c5_event (i : Nat) : EventRow :=
  { address := 1
    topic1 := 0
    topic2 := 0
    topic3 := 0
    topic4 := 0
    value := 0
    miniblock_number := 3
    tx_hash := 42
    tx_index_in_block := 0
    event_index_in_block := i
    event_index_in_tx := i }

/-- Concrete cross-domain message row for the stamping instance. -/
def c5_l2 (i : Nat) : L2ToL1Row :=
  { miniblock_number := 3
    log_index_in_miniblock := i
    log_index_in_tx := i
    tx_hash := 42
    shard_id := 0
    is_service := false
    tx_index_in_miniblock := 0
    tx_index_in_l1_batch := 0
    sender := 0
    key := 0
    value := 0 }

/-- Concrete store for the stamping instance: one included transaction, its
miniblock (hash 99, batch 7), and events / messages stored out of order. -/
def c5_store : Store :=
  { transactions := [c5_tx]
    miniblocks := [{ number := 3, hash := 99, l1_batch_number := some 7 }]
    storage_logs := []
    events := [c5_event 1, c5_event 0]
    l2_to_l1_logs := [c5_l2 1, c5_l2 0]
    latest_nonce := fun _ => 0 }

/-- The receipt assembled from `c5_store` for hash 42. -/
def c5_rec : TransactionReceipt :=
  ((get_transaction_receipt c5_store 42).getD none).getD default

theorem receipt_log_stamping_and_order_witness :
    get_transaction_receipt c5_store 42 = some (some c5_rec) ∧
    c5_rec.block_hash = some 99 ∧
    c5_rec.l1_batch_number = some 7 ∧
    (c5_rec.logs.map (fun l => l.block_hash)) = [some 99, some 99] ∧
    (c5_rec.l2_to_l1_logs.map (fun m => m.transaction_log_index)) = [0, 1] ∧
    c5_rec.logs.Pairwise (fun a b => lex_le (log_order_key a) (log_order_key b)) :=
  ⟨by decide, by decide, by decide, by decide, by decide,
    (receipt_log_stamping_and_order c5_store 42 c5_rec (by decide)).2.2.1⟩

/-- Claim C7: `get_pending_txs_hashes_after` returns exactly the stored
arrivals with timestamp strictly greater than the cursor, in ascending
timestamp order, truncated to at most `limit` entries (all of them when the
limit is absent); the returned cursor is the arrival timestamp of the last
returned row and is absent exactly when the result is empty. -/
theorem pending_txs_pagination_correct (s : Store) (ts : Nat)
    (limit : Option Nat) :
    (get_pending_txs_hashes_after s ts limit).1 =
        (pending_records s ts limit).map (fun t => t.hash) ∧
    (pending_records s ts limit).Pairwise
        (fun a b => a.received_at ≤ b.received_at) ∧
    (∀ t ∈ pending_records s ts limit,
        t ∈ s.transactions ∧ ts < t.received_at) ∧
    (∀ l, limit = some l → (pending_records s ts limit).length ≤ l) ∧
    (limit = none → ∀ t ∈ s.transactions, ts < t.received_at →
        t ∈ pending_records s ts limit) ∧
    (get_pending_txs_hashes_after s ts limit).2 =
        ((pending_records s ts limit).getLast?).map (fun t => t.received_at) ∧
    ((get_pending_txs_hashes_after s ts limit).2 = none ↔
        pending_records s ts limit = []) := by
  have hsorted : (pending_records s ts limit).Pairwise
      (fun a b => a.received_at ≤ b.received_at) := by
    have hbase : (List.insertionSort received_le
        (s.transactions.filter
          (fun t => decide (ts < t.received_at)))).Pairwise received_le :=
      List.sorted_insertionSort received_le _
    unfold pending_records
    rcases limit with _ | l
    · exact hbase.imp (fun hab => hab)
    · exact (List.Pairwise.sublist (List.take_sublist l _) hbase).imp
        (fun hab => hab)
  have hmem : ∀ t ∈ pending_records s ts limit,
      t ∈ s.transactions ∧ ts < t.received_at := by
    intro t htrec
    have hsortmem : t ∈ List.insertionSort received_le
        (s.transactions.filter (fun t => decide (ts < t.received_at))) := by
      unfold pending_records at htrec
      rcases limit with _ | l
      · exact htrec
      · exact List.mem_of_mem_take htrec
    rw [List.mem_insertionSort, List.mem_filter] at hsortmem
    exact ⟨hsortmem.1, by simpa using hsortmem.2⟩
  refine ⟨rfl, hsorted, hmem, ?_, ?_, rfl, ?_⟩
  · intro l hl
    subst hl
    unfold pending_records
    simp [List.length_take]
  · intro hl t ht hts
    subst hl
    unfold pending_records
    rw [List.mem_insertionSort, List.mem_filter]
    exact ⟨ht, by simpa using hts⟩
  · show (((pending_records s ts limit).getLast?).map
        (fun t => t.received_at) = none) ↔ _
    simp [Option.map_eq_none', List.getLast?_eq_none_iff]

/-- Concrete store for the pagination instance: five pending arrivals with
timestamps 11..15, stored out of order. -/
def page_store : Store :=
  { transactions :=
      [sample_tx 13, sample_tx 11, sample_tx 15, sample_tx 12, sample_tx 14]
    miniblocks := []
    storage_logs := []
    events := []
    l2_to_l1_logs := []
    latest_nonce := fun _ => 0 }

theorem pending_txs_pagination_correct_witness :
    get_pending_txs_hashes_after page_store 10 (some 2) = ([11, 12], some 12) ∧
    (pending_records page_store 10 (some 2)).length ≤ 2 :=
  ⟨by decide,
    (pending_txs_pagination_correct page_store 10 (some 2)).2.2.2.1 2 rfl⟩

/-- Claim C10: the circuit lookup tables are mutually inverse on their
domains: for every index up to 18 the name returned by
`numeric_index_to_circuit_name` maps back to that index;
`numeric_index_to_circuit_name` is `none` exactly above 18; and whenever
`circuit_name_to_numeric_index` returns an index, that index maps back to the
same name. -/
theorem circuit_round_trip_bounded :
    ∀ i : Nat, i < 19 →
      (numeric_index_to_circuit_name i).bind circuit_name_to_numeric_index =
        some i := by
  decide

theorem circuit_name_above_bound (i : Nat) (hgt : 18 < i) :
    numeric_index_to_circuit_name i = none := by
  obtain ⟨k, rfl⟩ : ∃ k, i = k + 19 := ⟨i - 19, by omega⟩
  rfl

set_option maxHeartbeats 1000000 in
theorem circuit_name_round_trip_back (n : String) (i : Nat)
    (h : circuit_name_to_numeric_index n = some i) :
    numeric_index_to_circuit_name i = some n := by
  unfold circuit_name_to_numeric_index at h
  by_cases c0 : n = "Scheduler"
  · rw [if_pos c0] at h
    injection h with hi
    subst hi
    subst c0
    rfl
  rw [if_neg c0] at h
  by_cases c1 : n = "Node aggregation"
  · rw [if_pos c1] at h
    injection h with hi
    subst hi
    subst c1
    rfl
  rw [if_neg c1] at h
  by_cases c2 : n = "Leaf aggregation"
  · rw [if_pos c2] at h
    injection h with hi
    subst hi
    subst c2
    rfl
  rw [if_neg c2] at h
  by_cases c3 : n = "Main VM"
  · rw [if_pos c3] at h
    injection h with hi
    subst hi
    subst c3
    rfl
  rw [if_neg c3] at h
  by_cases c4 : n = "Decommitts sorter"
  · rw [if_pos c4] at h
    injection h with hi
    subst hi
    subst c4
    rfl
  rw [if_neg c4] at h
  by_cases c5 : n = "Code decommitter"
  · rw [if_pos c5] at h
    injection h with hi
    subst hi
    subst c5
    rfl
  rw [if_neg c5] at h
  by_cases c6 : n = "Log demuxer"
  · rw [if_pos c6] at h
    injection h with hi
    subst hi
    subst c6
    rfl
  rw [if_neg c6] at h
  by_cases c7 : n = "Keccak"
  · rw [if_pos c7] at h
    injection h with hi
    subst hi
    subst c7
    rfl
  rw [if_neg c7] at h
  by_cases c8 : n = "SHA256"
  · rw [if_pos c8] at h
    injection h with hi
    subst hi
    subst c8
    rfl
  rw [if_neg c8] at h
  by_cases c9 : n = "ECRecover"
  · rw [if_pos c9] at h
    injection h with hi
    subst hi
    subst c9
    rfl
  rw [if_neg c9] at h
  by_cases c10 : n = "RAM permutation"
  · rw [if_pos c10] at h
    injection h with hi
    subst hi
    subst c10
    rfl
  rw [if_neg c10] at h
  by_cases c11 : n = "Storage sorter"
  · rw [if_pos c11] at h
    injection h with hi
    subst hi
    subst c11
    rfl
  rw [if_neg c11] at h
  by_cases c12 : n = "Storage application"
  · rw [if_pos c12] at h
    injection h with hi
    subst hi
    subst c12
    rfl
  rw [if_neg c12] at h
  by_cases c13 : n = "Initial writes pubdata rehasher"
  · rw [if_pos c13] at h
    injection h with hi
    subst hi
    subst c13
    rfl
  rw [if_neg c13] at h
  by_cases c14 : n = "Repeated writes pubdata rehasher"
  · rw [if_pos c14] at h
    injection h with hi
    subst hi
    subst c14
    rfl
  rw [if_neg c14] at h
  by_cases c15 : n = "Events sorter"
  · rw [if_pos c15] at h
    injection h with hi
    subst hi
    subst c15
    rfl
  rw [if_neg c15] at h
  by_cases c16 : n = "L1 messages sorter"
  · rw [if_pos c16] at h
    injection h with hi
    subst hi
    subst c16
    rfl
  rw [if_neg c16] at h
  by_cases c17 : n = "L1 messages rehasher"
  · rw [if_pos c17] at h
    injection h with hi
    subst hi
    subst c17
    rfl
  rw [if_neg c17] at h
  by_cases c18 : n = "L1 messages merklizer"
  · rw [if_pos c18] at h
    injection h with hi
    subst hi
    subst c18
    rfl
  rw [if_neg c18] at h
  exact Option.noConfusion h
theorem circuit_index_name_inverse :
    (∀ i : Nat, i ≤ 18 →
      (numeric_index_to_circuit_name i).bind circuit_name_to_numeric_index =
        some i) ∧
    (∀ i : Nat, numeric_index_to_circuit_name i = none ↔ 18 < i) ∧
    (∀ n i, circuit_name_to_numeric_index n = some i →
        numeric_index_to_circuit_name i = some n) := by
  refine ⟨?_, ?_, circuit_name_round_trip_back⟩
  · intro i hi
    exact circuit_round_trip_bounded i (by omega)
  · intro i
    constructor
    · intro hnone
      by_contra hc
      push_neg at hc
      have hsome := circuit_round_trip_bounded i (by omega)
      rw [hnone] at hsome
      exact Option.noConfusion hsome
    · exact circuit_name_above_bound i

theorem circuit_index_name_inverse_witness :
    circuit_name_to_numeric_index "Keccak" = some 7 ∧
    numeric_index_to_circuit_name 7 = some "Keccak" :=
  ⟨by decide, circuit_index_name_inverse.2.2 "Keccak" 7 (by decide)⟩
